import Mathlib

/-!
Verification development for the samply profiling toolchain.

This file gives a shallow embedding, in Lean, of the core algorithms of the
repository and proves the specified properties about them:

* `src/samply/src/shared/file_inventory.rs` — the durable file inventory and
  its size-based eviction query (`FileInventory`);
* `src/perfrecord/src/proc_maps.rs` — the foreign-memory segment cache
  (`ForeignMemory`), the frame-pointer stack walker, and the suspend/resume
  bracketing of `get_backtrace` / `get_dyld_info`;
* `src/lib/src/pdb/type_dumper.rs` — the PDB type dumper (`TypeDumper`):
  the forward-reference size map, `get_type_size`, and array rendering.

Machine integers are modelled as `Nat` (with explicit `% 2 ^ 64` where u64
wrap-around matters), fallible operations as `Option`/`Except`, and the SQLite
database as an explicit list of rows.  Rust panics are modelled as `Option`
`none` / a dedicated error constructor where they can occur on the modelled
paths.
-/

/-! ## File inventory (`file_inventory.rs`)

A database row of the `files` table.  `Path` (the primary key) is stored
root-relative; paths are modelled as lists of components.  Times are UNIX
seconds, sizes in bytes; both are modelled as `Nat`.
-/

structure FileRow where
  path : List String
  size : Nat
  creationTime : Nat
  lastAccessTime : Nat
deriving DecidableEq, Repr

/-- The in-memory model of the `files` table of the inventory database. -/
abbrev Inventory := List FileRow

/-- `SELECT SUM(Size) FROM files` — `FileInventory::total_size_in_bytes`. -/
def totalSizeInBytes (db : Inventory) : Nat :=
  (db.map (·.size)).sum

/-- The comparison used by `ORDER BY LastAccessTime ASC`. -/
def accessLe (a b : FileRow) : Prop :=
  a.lastAccessTime ≤ b.lastAccessTime

instance : DecidableRel accessLe := fun a b =>
  Nat.decLe a.lastAccessTime b.lastAccessTime

instance : IsTotal FileRow accessLe :=
  ⟨fun a b => Nat.le_total a.lastAccessTime b.lastAccessTime⟩

instance : IsTrans FileRow accessLe :=
  ⟨fun _ _ _ hab hbc => Nat.le_trans hab hbc⟩

/-- The row sequence produced by `SELECT ... ORDER BY LastAccessTime ASC`,
modelled as a stable sort of the table's rows by last-access time. -/
def orderByLastAccessTime (db : Inventory) : List FileRow :=
  db.insertionSort accessLe

/-- `FileInventory::to_absolute_path`: join the managed root with a
root-relative path (the `canonicalize` of an existing joined path is the
identity in this model). -/
def toAbsolutePath (root : List String) (rel : List String) : List String :=
  root ++ rel

/-- `FileInventory::relative_path_under_managed_directory`: canonicalize the
incoming path (modelled by the abstract function `canon`, which already
includes the fallback to the original path on canonicalization failure) and
strip the managed root; `none` when the path is not under the root. -/
def relative_path_under_managed_directory (root : List String)
    (canon : List String → List String) (p : List String) :
    Option (List String) :=
  let q := canon p
  if root.isPrefixOf q then some (q.drop root.length) else none

/-- The `INSERT ... ON CONFLICT([Path]) DO UPDATE` upsert used by
`on_file_created`: replace the row with the same primary key, or append. -/
def upsertRow (db : Inventory) (row : FileRow) : Inventory :=
  if db.any (fun r => r.path = row.path) then
    db.map (fun r => if r.path = row.path then row else r)
  else
    db ++ [row]

/-- `FileInventory::on_file_created`. -/
def on_file_created (root : List String) (canon : List String → List String)
    (db : Inventory) (p : List String) (sizeInBytes : Nat)
    (creationTime : Nat) : Inventory :=
  match relative_path_under_managed_directory root canon p with
  | none => db
  | some rel => upsertRow db ⟨rel, sizeInBytes, creationTime, creationTime⟩

/-- `FileInventory::on_file_accessed` (`UPDATE files SET LastAccessTime`). -/
def on_file_accessed (root : List String) (canon : List String → List String)
    (db : Inventory) (p : List String) (accessTime : Nat) : Inventory :=
  match relative_path_under_managed_directory root canon p with
  | none => db
  | some rel =>
    db.map (fun r =>
      if r.path = rel then { r with lastAccessTime := accessTime } else r)

/-- `FileInventory::on_file_deleted` (`DELETE FROM files WHERE Path = ?`). -/
def on_file_deleted (root : List String) (canon : List String → List String)
    (db : Inventory) (p : List String) : Inventory :=
  match relative_path_under_managed_directory root canon p with
  | none => db
  | some rel => db.filter (fun r => r.path ≠ rel)

/-- `FileInventory::on_file_found_to_be_absent`, defined as deletion. -/
def on_file_found_to_be_absent (root : List String)
    (canon : List String → List String) (db : Inventory) (p : List String) :
    Inventory :=
  on_file_deleted root canon db p

/-- The accumulation loop of `get_files_to_delete_to_enforce_max_size`: push
the row's path, subtract its size from the excess with saturation, and stop
once the excess reaches zero.  Note that the row is pushed *before* the
check, so a nonempty row list always contributes at least one path. -/
def filesToDeleteLoop (excess : Nat) : List FileRow → List FileRow
  | [] => []
  | r :: rs =>
    r :: (if excess - r.size = 0 then [] else filesToDeleteLoop (excess - r.size) rs)

/-- `FileInventory::get_files_to_delete_to_enforce_max_size`:
`total_size.checked_sub(max_size_bytes)` is `None` exactly when the total is
strictly below the cap; otherwise iterate over the rows in ascending
last-access order, converting each to an absolute path. -/
def get_files_to_delete_to_enforce_max_size (root : List String)
    (db : Inventory) (maxSizeBytes : Nat) : List (List String) :=
  let total := totalSizeInBytes db
  if total < maxSizeBytes then
    []
  else
    (filesToDeleteLoop (total - maxSizeBytes) (orderByLastAccessTime db)).map
      (fun r => toAbsolutePath root r.path)

/-- Modelled from the spec (amended reading of the size-eviction query):
accumulate rows in ascending last-access order until their cumulative size
reduces the total to **at most** the cap. -/
def accumulateUntilAtMostCap (excess : Nat) : List FileRow → List FileRow
  | [] => []
  | r :: rs =>
    r :: (if excess ≤ r.size then [] else accumulateUntilAtMostCap (excess - r.size) rs)

/-- Modelled from the spec (amended reading): the whole size-eviction query,
phrased from the spec's words. -/
def specEnforceMaxSizeAtMostCap (root : List String) (db : Inventory)
    (maxSizeBytes : Nat) : List (List String) :=
  let total := totalSizeInBytes db
  if total < maxSizeBytes then
    []
  else
    (accumulateUntilAtMostCap (total - maxSizeBytes) (orderByLastAccessTime db)).map
      (fun r => toAbsolutePath root r.path)

/-- Modelled from the spec's literal words for the size-eviction query:
accumulate rows until their cumulative size would reduce the total strictly
**below** the cap (`acc` is the size accumulated so far). -/
def claimAccumulateUntilBelowCap (total cap : Nat) (acc : Nat) :
    List FileRow → List FileRow
  | [] => []
  | r :: rs =>
    if total - acc < cap then []
    else r :: claimAccumulateUntilBelowCap total cap (acc + r.size) rs

/-- Modelled from the spec's literal words: the size-eviction query as the
claim states it (strictly below the cap). -/
def claimEnforceMaxSizeBelowCap (root : List String) (db : Inventory)
    (maxSizeBytes : Nat) : List (List String) :=
  let total := totalSizeInBytes db
  if total < maxSizeBytes then
    []
  else
    (claimAccumulateUntilBelowCap total maxSizeBytes 0 (orderByLastAccessTime db)).map
      (fun r => toAbsolutePath root r.path)

/-! ## Foreign memory cache (`proc_maps.rs`)

`ForeignMemory` keeps a list of remapped segments of the target's address
space.  Only the address ranges matter for the cache protocol, so a segment
is modelled by its half-open `address_range`. -/

/-- `vm_page_size` on the x86-64 Darwin targets this code runs on. -/
def vmPageSize : Nat := 4096

/-- `mach_vm_trunc_page`: round an address down to a page boundary. -/
def machVmTruncPage (a : Nat) : Nat := a / vmPageSize * vmPageSize

/-- The `address_range` of a `VmData` segment (`stop` is the exclusive end;
`end` is a keyword in Lean). -/
structure Segment where
  start : Nat
  stop : Nat
deriving DecidableEq, Repr

/-- The comparator closure passed to `binary_search_by` in
`ForeignMemory::data_index_for_address`. -/
def segCompare (d : Segment) (address : Nat) : Ordering :=
  if d.start > address then .gt
  else if d.stop ≤ address then .lt
  else .eq

/-- Result of Rust's `slice::binary_search_by`: `found i` is `Ok(i)`,
`notFound i` is `Err(i)` (the insertion point). -/
inductive SearchResult
  | found (i : Nat)
  | notFound (i : Nat)
deriving DecidableEq, Repr

/-- Rust core's `slice::binary_search_by` loop, with fuel for termination
(the interval shrinks every iteration, so `data.length + 1` fuel always
suffices). -/
def binarySearchGo (data : List Segment) (address : Nat) :
    Nat → Nat → Nat → SearchResult
  | 0, left, _ => .notFound left
  | fuel + 1, left, right =>
    if left < right then
      let mid := left + (right - left) / 2
      match segCompare (data.getD mid ⟨0, 0⟩) address with
      | .lt => binarySearchGo data address fuel (mid + 1) right
      | .gt => binarySearchGo data address fuel left mid
      | .eq => .found mid
    else
      .notFound left

/-- `ForeignMemory::data_index_for_address`. -/
def data_index_for_address (data : List Segment) (address : Nat) :
    SearchResult :=
  binarySearchGo data address (data.length + 1) 0 data.length

/-- The remap arm of `ForeignMemory::get_data_for_range`: page-align the
enclosing range, remap it (`mapOk` abstracts success of `mach_vm_remap`; on
failure nothing is inserted), and `splice(i..j, once(new))` — remove the
segments at indices `i` (inclusive) to `j` (exclusive) and insert the new
segment at `i`. -/
def foreignRemap (mapOk : Nat → Nat → Bool) (data : List Segment)
    (firstByteAddr lastByteAddr : Nat) (i j : Nat) :
    Except Unit (List Segment × Segment) :=
  let startAddr := machVmTruncPage firstByteAddr
  let endAddr := machVmTruncPage lastByteAddr + vmPageSize
  let size := endAddr - startAddr
  if mapOk startAddr size then
    let seg : Segment := ⟨startAddr, startAddr + size⟩
    .ok (data.take i ++ [seg] ++ data.drop j, seg)
  else
    .error ()

/-- `ForeignMemory::get_data_for_range`: binary-search both endpoints; if
both hit the same segment serve from it, otherwise remap and splice.  The
returned pair is (new segment list, segment serving the request).  Note the
Rust computes `last_byte_addr` as `address_range.end - 1` (natural-number
subtraction models the `u64` subtraction on the in-range inputs used by the
callers). -/
def get_data_for_range (mapOk : Nat → Nat → Bool) (data : List Segment)
    (rangeStart rangeStop : Nat) : Except Unit (List Segment × Segment) :=
  let firstByteAddr := rangeStart
  let lastByteAddr := rangeStop - 1
  match data_index_for_address data firstByteAddr,
      data_index_for_address data lastByteAddr with
  | .found i, .found j =>
    if i = j then .ok (data, data.getD i ⟨0, 0⟩)
    else foreignRemap mapOk data firstByteAddr lastByteAddr i j
  | .found i, .notFound j => foreignRemap mapOk data firstByteAddr lastByteAddr i j
  | .notFound i, .found j => foreignRemap mapOk data firstByteAddr lastByteAddr i j
  | .notFound i, .notFound j => foreignRemap mapOk data firstByteAddr lastByteAddr i j

/-- The cache-state effect of one `ForeignMemory::get_slice` call (the byte
contents are irrelevant to the segment-list invariant): on a remap failure
the segment list is unchanged. -/
def sliceStep (mapOk : Nat → Nat → Bool) (data : List Segment)
    (rangeStart rangeStop : Nat) : List Segment :=
  match get_data_for_range mapOk data rangeStart rangeStop with
  | .ok (d, _) => d
  | .error _ => data

/-- Two segments overlap when they share an address. -/
def segOverlap (a b : Segment) : Prop :=
  a.start < b.stop ∧ b.start < a.stop

instance (a b : Segment) : Decidable (segOverlap a b) := instDecidableAnd

/-- The claimed cache invariant: segments are pairwise disjoint and sorted
ascending by start address. -/
def segInvariant (l : List Segment) : Prop :=
  l.Pairwise (fun a b => ¬ segOverlap a b ∧ a.start ≤ b.start)

instance (l : List Segment) : Decidable (segInvariant l) := by
  unfold segInvariant; infer_instance

/-! ## Frame-pointer stack walker (`proc_maps.rs`) -/

/-- The foreign memory as seen through `read_u64_at_address`: `none` models
a kernel error (e.g. invalid address).  Values are `u64`, so every read is
reduced `% 2 ^ 64`. -/
abbrev Mem := Nat → Option Nat

/-- The x86-64 register state fetched by `thread_get_state` (only `rip` and
`rbp` are used by the walker). -/
structure ThreadState64 where
  rip : Nat
  rbp : Nat

/-- The `while` loop of `do_frame_pointer_stackwalk`: continue while the
frame pointer is nonzero and 8-aligned; read the caller's frame pointer at
`*rbp` and the return address at `*(rbp + 8)` (the address computed with
`u64` wrap-around); stop on a read failure or a non-increasing frame
pointer; otherwise push the return address and advance. -/
def walkLoop (mem : Mem) (framePtr : Nat) (frames : List Nat) : List Nat :=
  if framePtr ≠ 0 ∧ framePtr % 8 = 0 then
    match mem framePtr with
    | none => frames
    | some v =>
      let callerFramePtr := v % 2 ^ 64
      if callerFramePtr ≤ framePtr then frames
      else
        match mem ((framePtr + 8) % 2 ^ 64) with
        | none => frames
        | some r => walkLoop mem callerFramePtr (frames ++ [r % 2 ^ 64])
  else
    frames
termination_by 2 ^ 64 - framePtr
decreasing_by omega

/-- `do_frame_pointer_stackwalk`: push `rip`, run the loop from `rbp`, and
reverse the collected sequence so the output is caller-first. -/
def do_frame_pointer_stackwalk (initialState : ThreadState64) (mem : Mem)
    (frames : List Nat) : List Nat :=
  (walkLoop mem initialState.rbp (frames ++ [initialState.rip])).reverse

/-- Modelled from the spec: the chain of return addresses the walk collects,
phrased from the spec's words (reject a zero or misaligned `rbp`; read the
next frame pointer and the return address; stop on failure or a
non-monotonic chain; otherwise record the return address and advance). -/
def specFrameChain (mem : Mem) (framePtr : Nat) : List Nat :=
  if framePtr = 0 ∨ framePtr % 8 ≠ 0 then []
  else
    match mem framePtr with
    | none => []
    | some v =>
      let next := v % 2 ^ 64
      if next ≤ framePtr then []
      else
        match mem ((framePtr + 8) % 2 ^ 64) with
        | none => []
        | some r => r % 2 ^ 64 :: specFrameChain mem next
termination_by 2 ^ 64 - framePtr
decreasing_by omega

/-! ## Suspend/resume bracketing (`get_backtrace`, `get_dyld_info`) -/

/-- The kernel primitives whose invocations we track. -/
inductive MachEvent
  | threadSuspendCall
  | threadGetStateCall
  | threadResumeCall
  | taskSuspendCall
  | taskResumeCall
deriving DecidableEq, Repr

/-- Kernel failures surfaced by the modelled operations. -/
inductive KernelErr
  | suspendFailed
  | getStateFailed
  | innerFailed
deriving DecidableEq, Repr

/-- `get_backtrace`: suspend the thread (outcome `suspendOk`), fetch the
register state (outcome `stateResult`, `none` = failure), walk, and resume.
The second component is the ordered trace of kernel primitives invoked. -/
def get_backtrace (suspendOk : Bool) (stateResult : Option ThreadState64)
    (mem : Mem) (frames : List Nat) :
    Except KernelErr (List Nat) × List MachEvent :=
  if suspendOk then
    match stateResult with
    | none =>
      (.error .getStateFailed,
        [.threadSuspendCall, .threadGetStateCall, .threadResumeCall])
    | some st =>
      (.ok (do_frame_pointer_stackwalk st mem frames),
        [.threadSuspendCall, .threadGetStateCall, .threadResumeCall])
  else
    (.error .suspendFailed, [.threadSuspendCall])

/-- `get_dyld_info`: suspend the task, run
`get_dyld_info_with_suspended_task` (whose outcome, success or any failure,
is abstracted as `innerResult`), resume unconditionally, and return the
inner result. -/
def get_dyld_info {α : Type} (suspendOk : Bool)
    (innerResult : Except KernelErr α) :
    Except KernelErr α × List MachEvent :=
  if suspendOk then
    (innerResult, [.taskSuspendCall, .taskResumeCall])
  else
    (.error .suspendFailed, [.taskSuspendCall])

/-! ## PDB type dumper (`type_dumper.rs`)

The type-record data model from the external `pdb` crate, restricted to the
variants the dumper dispatches on (the crate's remaining variants all fall
into the dumper's catch-all arms and are not touched by any claim).  Type
indices are `Nat`; the external `TypeFinder` is an abstract partial function
from indices to parsed records (`none` models a resolution/parse failure).
-/

inductive PrimKind
  | noType | void | char | uchar | rchar | wchar | rchar16 | rchar32
  | i8 | u8 | short | ushort | i16 | u16 | long | ulong | i32 | u32
  | quad | uquad | i64 | u64 | i128 | octa | u128 | uocta
  | f16 | f32 | f32pp | f48 | f64 | f80 | f128
  | complex32 | complex64 | complex80 | complex128
  | bool8 | bool16 | bool32 | bool64 | hresult
deriving DecidableEq, Repr

inductive PtrMode
  | pointer | lvalueReference | member | memberFunction | rvalueReference
deriving DecidableEq, Repr

inductive AggKind
  | cls | interface | struct
deriving DecidableEq, Repr

/-- `pdb::Variant` — an enumerator value of explicit width. -/
inductive PdbVariant
  | i8 (v : Int) | u8 (v : Nat) | i16 (v : Int) | u16 (v : Nat)
  | i32 (v : Int) | u32 (v : Nat) | i64 (v : Int) | u64 (v : Nat)
deriving DecidableEq, Repr

structure PrimitiveType where
  kind : PrimKind
  indirection : Bool
deriving DecidableEq, Repr

structure ClassType where
  name : String
  uniqueName : Option String
  kind : AggKind
  size : Nat
  forwardReference : Bool
deriving DecidableEq, Repr

structure UnionType where
  name : String
  uniqueName : Option String
  size : Nat
  forwardReference : Bool
deriving DecidableEq, Repr

structure PointerAttributes where
  isConst : Bool
  mode : PtrMode
  byteSize : Nat
deriving DecidableEq, Repr

structure PointerType where
  underlyingType : Nat
  attributes : PointerAttributes
deriving DecidableEq, Repr

structure ModifierType where
  underlyingType : Nat
  constant : Bool
deriving DecidableEq, Repr

structure ArrayType where
  elementType : Nat
  dimensions : List Nat
deriving DecidableEq, Repr

structure FunctionAttributes where
  isConstructor : Bool
deriving DecidableEq, Repr

structure ProcedureType where
  returnType : Option Nat
  attributes : FunctionAttributes
  argumentList : Nat
deriving DecidableEq, Repr

structure MemberFunctionType where
  classType : Nat
  thisPointerType : Option Nat
  returnType : Nat
  attributes : FunctionAttributes
  argumentList : Nat
deriving DecidableEq, Repr

structure EnumerationType where
  name : String
  underlyingType : Nat
deriving DecidableEq, Repr

structure EnumerateType where
  name : String
  value : PdbVariant
deriving DecidableEq, Repr

structure ArgumentListType where
  arguments : List Nat
deriving DecidableEq, Repr

inductive TypeData
  | primitive (t : PrimitiveType)
  | cls (t : ClassType)
  | union (t : UnionType)
  | pointer (t : PointerType)
  | modifier (t : ModifierType)
  | array (t : ArrayType)
  | procedure (t : ProcedureType)
  | memberFunction (t : MemberFunctionType)
  | argumentList (t : ArgumentListType)
  | enumeration (t : EnumerationType)
  | enumerate (t : EnumerateType)
deriving DecidableEq, Repr

/-- The four style flags of `DumperFlags`. -/
structure DumperFlags where
  noFunctionReturn : Bool
  spaceAfterComma : Bool
  spaceBeforePointer : Bool
  nameOnly : Bool
deriving DecidableEq, Repr

/-- `DumperFlags::default()`:
`NO_FUNCTION_RETURN | SPACE_AFTER_COMMA | NAME_ONLY`. -/
def DumperFlags.defaults : DumperFlags :=
  ⟨true, true, false, true⟩

/-- The forward-reference size map (`FwdRefSize`), an association list with
shadowing lookup — extensionally a `HashMap<name, size>` with last-writer-wins
insertion. -/
def fwdGet : List (String × Nat) → String → Option Nat
  | [], _ => none
  | (k, v) :: rest, key => if key = k then some v else fwdGet rest key

def fwdInsert (m : List (String × Nat)) (k : String) (v : Nat) :
    List (String × Nat) :=
  (k, v) :: m

/-- One step of the linear pass of `TypeDumper::new` over the type stream:
for a class or union record whose forward-reference flag is clear, insert
its unique name (falling back to the source name) with its declared size. -/
def fwdStep (m : List (String × Nat)) : TypeData → List (String × Nat)
  | .cls c =>
    if ¬c.forwardReference then fwdInsert m (c.uniqueName.getD c.name) c.size
    else m
  | .union u =>
    if ¬u.forwardReference then fwdInsert m (u.uniqueName.getD u.name) u.size
    else m
  | _ => m

/-- The single linear pass of `TypeDumper::new` over the type stream. -/
def buildFwd (stream : List TypeData) : List (String × Nat) :=
  stream.foldl fwdStep []

/-- The dumper state after `TypeDumper::new`. -/
structure TypeDumper where
  find : Nat → Option TypeData
  fwd : List (String × Nat)
  ptrSize : Nat
  flags : DumperFlags

/-- Build a `TypeDumper` from the stream it was constructed over (the finder
resolves an index to the parsed record, abstracted as a function). -/
def TypeDumper.new (find : Nat → Option TypeData) (stream : List TypeData)
    (ptrSize : Nat) (flags : DumperFlags) : TypeDumper :=
  ⟨find, buildFwd stream, ptrSize, flags⟩

/-- `TypeDumper::get_class_size`. -/
def get_class_size (d : TypeDumper) (t : ClassType) : Nat :=
  if t.forwardReference then
    (fwdGet d.fwd (t.uniqueName.getD t.name)).getD t.size
  else
    t.size

/-- `TypeDumper::get_union_size`. -/
def get_union_size (d : TypeDumper) (t : UnionType) : Nat :=
  if t.forwardReference then
    (fwdGet d.fwd (t.uniqueName.getD t.name)).getD t.size
  else
    t.size

/-- The primitive-size table of `TypeDumper::get_data_size`. -/
def primitiveSize : PrimKind → Nat
  | .noType | .void => 0
  | .char | .uchar | .rchar | .i8 | .u8 | .bool8 => 1
  | .wchar | .rchar16 | .short | .ushort | .i16 | .u16 | .f16 | .bool16 => 2
  | .rchar32 | .long | .ulong | .i32 | .u32 | .f32 | .f32pp | .bool32
  | .hresult => 4
  | .i64 | .u64 | .quad | .uquad | .f64 | .complex32 | .bool64 => 8
  | .i128 | .u128 | .octa | .uocta | .f128 | .complex64 => 16
  | .f48 => 6
  | .f80 => 10
  | .complex80 => 20
  | .complex128 => 32

/-- The enumerate-value width table of `TypeDumper::get_data_size`. -/
def variantSize : PdbVariant → Nat
  | .i8 _ | .u8 _ => 1
  | .i16 _ | .u16 _ => 2
  | .i32 _ | .u32 _ => 4
  | .i64 _ | .u64 _ => 8

/-- Failures of the modelled dumper operations.  `resolution` is a type
"not found / unparsable" failure from the finder, `panicked` a Rust panic
(e.g. indexing an empty dimensions vector), and `fuelOut` marks recursion
depth exhausted in the model (the Rust code diverges on such inputs, so a
`fuelOut`-free result is exactly a result the Rust code produces). -/
inductive DumpErr
  | resolution
  | panicked
  | fuelOut
deriving DecidableEq, Repr

mutual

/-- `TypeDumper::get_type_size`: resolution failures map to size 0. -/
def getTypeSize (d : TypeDumper) : Nat → Nat → Except DumpErr Nat
  | 0, _ => .error .fuelOut
  | fuel + 1, index =>
    match d.find index with
    | none => .ok 0
    | some t => getDataSize d fuel t

/-- `TypeDumper::get_data_size`. -/
def getDataSize (d : TypeDumper) : Nat → TypeData → Except DumpErr Nat
  | 0, _ => .error .fuelOut
  | _ + 1, .primitive t =>
    .ok (if t.indirection then d.ptrSize else primitiveSize t.kind)
  | _ + 1, .cls t => .ok (get_class_size d t)
  | _ + 1, .memberFunction _ => .ok d.ptrSize
  | _ + 1, .procedure _ => .ok d.ptrSize
  | _ + 1, .pointer t => .ok t.attributes.byteSize
  | _ + 1, .array t =>
    match t.dimensions.getLast? with
    | none => .error .panicked
    | some dim => .ok dim
  | _ + 1, .union t => .ok (get_union_size d t)
  | fuel + 1, .enumeration t => getTypeSize d fuel t.underlyingType
  | _ + 1, .enumerate t => .ok (variantSize t.value)
  | fuel + 1, .modifier t => getTypeSize d fuel t.underlyingType
  | _ + 1, .argumentList _ => .ok 0

end

/-- `ThisKind` and `ThisKind::new`. -/
inductive ThisKind
  | this | constThis | notThis
deriving DecidableEq, Repr

def mkThisKind (isThis isConst : Bool) : ThisKind :=
  if isThis then (if isConst then .constThis else .this) else .notThis

/-- `TypeDumper::check_this_type`. -/
def checkThisType (d : TypeDumper) (this cls : Nat) : Except DumpErr ThisKind :=
  match d.find this with
  | none => .error .resolution
  | some (.pointer ptr) =>
    if ptr.underlyingType = cls then .ok .this
    else
      match d.find ptr.underlyingType with
      | none => .error .resolution
      | some (.modifier m) => .ok (mkThisKind (m.underlyingType = cls) m.constant)
      | some _ => .ok .notThis
  | some (.modifier m) =>
    match d.find m.underlyingType with
    | none => .error .resolution
    | some (.pointer ptr) => .ok (mkThisKind (ptr.underlyingType = cls) m.constant)
    | some _ => .ok .notThis
  | some _ => .ok .notThis

/-- `TypeDumper::fix_return`: append a space to a nonempty return type. -/
def fixReturn (s : String) : String :=
  if s = "" then s else s ++ " "

/-- The pointer-qualifier tuples collected by `dump_ptr`. -/
structure PtrAttrs where
  isPointerConst : Bool
  isPointeeConst : Bool
  mode : PtrMode
deriving DecidableEq, Repr

/-- `attributes.last_mut().unwrap().is_pointee_const = c` (the vector is
never empty at this point in `dump_ptr`). -/
def setLastPointeeConst (c : Bool) : List PtrAttrs → List PtrAttrs
  | [] => []
  | [a] => [{ a with isPointeeConst := c }]
  | a :: rest => a :: setLastPointeeConst c rest

/-- `TypeDumper::dump_attributes`: fold over the collected qualifiers in
reverse (source order), then trim. -/
def dumpAttributes (d : TypeDumper) (attrs : List PtrAttrs) : String :=
  (attrs.reverse.foldl
    (fun buf a =>
      let buf :=
        if a.isPointeeConst then
          buf ++ (if d.flags.spaceBeforePointer then " const " else " const")
        else buf
      let buf := buf ++
        (match a.mode with
         | .pointer => "*"
         | .lvalueReference => "&"
         | .member => "::*"
         | .memberFunction => "::*"
         | .rvalueReference => "&&")
      if a.isPointerConst then
        buf ++ (if d.flags.spaceBeforePointer then " const " else " const")
      else buf)
    "").trim

/-- The primitive-name table of `TypeDumper::dump_primitive`. -/
def primitiveName : PrimKind → String
  | .noType => "<NoType>"
  | .void => "void"
  | .char => "signed char"
  | .uchar => "unsigned char"
  | .rchar => "char"
  | .wchar => "wchar_t"
  | .rchar16 => "char16_t"
  | .rchar32 => "char32_t"
  | .i8 => "int8_t"
  | .u8 => "uint8_t"
  | .short => "short"
  | .ushort => "unsigned short"
  | .i16 => "int16_t"
  | .u16 => "uint16_t"
  | .long => "long"
  | .ulong => "unsigned long"
  | .i32 => "int"
  | .u32 => "unsigned int"
  | .quad => "long long"
  | .uquad => "unsigned long long"
  | .i64 => "int64_t"
  | .u64 => "uint64_t"
  | .i128 | .octa => "int128_t"
  | .u128 | .uocta => "uint128_t"
  | .f16 => "float16_t"
  | .f32 => "float"
  | .f32pp => "float"
  | .f48 => "float48_t"
  | .f64 => "double"
  | .f80 => "long double"
  | .f128 => "long double"
  | .complex32 => "complex<float>"
  | .complex64 => "complex<double>"
  | .complex80 => "complex<long double>"
  | .complex128 => "complex<long double>"
  | .bool8 => "bool"
  | .bool16 => "bool16_t"
  | .bool32 => "bool32_t"
  | .bool64 => "bool64_t"
  | .hresult => "HRESULT"

/-- `TypeDumper::dump_primitive`. -/
def dumpPrimitive (d : TypeDumper) (p : PrimitiveType) (isConst : Bool) :
    String :=
  let name := primitiveName p.kind
  if p.indirection then
    if d.flags.spaceBeforePointer then
      if isConst then name ++ " const *" else name ++ " *"
    else
      if isConst then name ++ " const*" else name ++ "*"
  else
    if isConst then "const " ++ name else name

/-- `TypeDumper::dump_class`. -/
def dumpClass (d : TypeDumper) (c : ClassType) : String :=
  if d.flags.nameOnly then c.name
  else
    (match c.kind with
     | .cls => "class"
     | .interface => "interface"
     | .struct => "struct") ++ " " ++ c.name

/-- `TypeDumper::dump_named`. -/
def dumpNamed (d : TypeDumper) (base : String) (name : String) : String :=
  if d.flags.nameOnly then name else base ++ " " ++ name

/-- The dimension map of `dump_array`: iterate over the reversed dimension
list with the running divisor (`size` in the source), starting from the
element size; a zero divisor renders as `[]`. -/
def dimStringsGo (size : Nat) : List Nat → List String
  | [] => []
  | dim :: rest =>
    (if size ≠ 0 then "[" ++ toString (dim / size) ++ "]" else "[]")
      :: dimStringsGo dim rest

mutual

/-- `TypeDumper::dump_index`: resolve and dump. -/
def dumpIndex (d : TypeDumper) : Nat → Nat → Except DumpErr String
  | 0, _ => .error .fuelOut
  | fuel + 1, index =>
    match d.find index with
    | none => .error .resolution
    | some t => dumpData d fuel t

/-- `TypeDumper::dump_data`. -/
def dumpData (d : TypeDumper) : Nat → TypeData → Except DumpErr String
  | 0, _ => .error .fuelOut
  | _ + 1, .primitive t => .ok (dumpPrimitive d t false)
  | _ + 1, .cls t => .ok (dumpClass d t)
  | fuel + 1, .memberFunction t => do
    let parts ← dumpMethodParts d fuel t d.flags.noFunctionReturn
    .ok (fixReturn parts.2.2.1 ++ "()(" ++ parts.2.2.2 ++ ")")
  | fuel + 1, .procedure t => do
    let parts ← dumpProcedureParts d fuel t d.flags.noFunctionReturn
    .ok (fixReturn parts.1 ++ "()(" ++ parts.2 ++ ")")
  | fuel + 1, .argumentList t => dumpArgList d fuel t
  | fuel + 1, .pointer t => dumpPtr d fuel t false
  | fuel + 1, .array t => dumpArray d fuel t
  | _ + 1, .union t => .ok (dumpNamed d "union" t.name)
  | _ + 1, .enumeration t => .ok (dumpNamed d "enum" t.name)
  | _ + 1, .enumerate t => .ok (dumpNamed d "enum class" t.name)
  | fuel + 1, .modifier t => dumpModifier d fuel t

/-- `TypeDumper::dump_modifier`. -/
def dumpModifier (d : TypeDumper) : Nat → ModifierType → Except DumpErr String
  | 0, _ => .error .fuelOut
  | fuel + 1, m =>
    match d.find m.underlyingType with
    | none => .error .resolution
    | some (.pointer p) => dumpPtr d fuel p m.constant
    | some (.primitive p) => .ok (dumpPrimitive d p m.constant)
    | some t => do
      let s ← dumpData d fuel t
      .ok (if m.constant then "const " ++ s else s)

/-- `TypeDumper::dump_ptr`: push the first qualifier tuple, then enter the
chain-walking loop. -/
def dumpPtr (d : TypeDumper) : Nat → PointerType → Bool → Except DumpErr String
  | 0, _, _ => .error .fuelOut
  | fuel + 1, ptr, isConst =>
    dumpPtrLoop d fuel ptr
      [⟨ptr.attributes.isConst || isConst, false, ptr.attributes.mode⟩]

/-- The `loop` of `TypeDumper::dump_ptr`: follow the pointer chain,
collecting qualifier tuples; a modifier between pointers attaches its
`constant` flag to the most recently pushed tuple's pointee-const. -/
def dumpPtrLoop (d : TypeDumper) :
    Nat → PointerType → List PtrAttrs → Except DumpErr String
  | 0, _, _ => .error .fuelOut
  | fuel + 1, ptr, attrs =>
    match d.find ptr.underlyingType with
    | none => .error .resolution
    | some (.pointer p) =>
      dumpPtrLoop d fuel p
        (attrs ++ [⟨p.attributes.isConst, false, p.attributes.mode⟩])
    | some (.modifier m) =>
      let attrs := setLastPointeeConst m.constant attrs
      match d.find m.underlyingType with
      | none => .error .resolution
      | some (.pointer p) =>
        dumpPtrLoop d fuel p
          (attrs ++ [⟨p.attributes.isConst, false, p.attributes.mode⟩])
      | some t => dumpPtrHelper d fuel attrs t
    | some t => dumpPtrHelper d fuel attrs t

/-- `TypeDumper::dump_ptr_helper`. -/
def dumpPtrHelper (d : TypeDumper) :
    Nat → List PtrAttrs → TypeData → Except DumpErr String
  | 0, _, _ => .error .fuelOut
  | fuel + 1, attrs, .memberFunction t => dumpMemberPtr d fuel t attrs
  | fuel + 1, attrs, .procedure t => dumpProcPtr d fuel t attrs
  | fuel + 1, attrs, t => dumpOtherPtr d fuel t attrs

/-- `TypeDumper::dump_member_ptr`. -/
def dumpMemberPtr (d : TypeDumper) :
    Nat → MemberFunctionType → List PtrAttrs → Except DumpErr String
  | 0, _, _ => .error .fuelOut
  | fuel + 1, fn, attrs => do
    let cls ← dumpIndex d fuel fn.classType
    let parts ← dumpMethodParts d fuel fn false
    .ok (fixReturn parts.2.2.1 ++ "(" ++ cls ++ dumpAttributes d attrs ++ ")("
      ++ parts.2.2.2 ++ ")")

/-- `TypeDumper::dump_proc_ptr`. -/
def dumpProcPtr (d : TypeDumper) :
    Nat → ProcedureType → List PtrAttrs → Except DumpErr String
  | 0, _, _ => .error .fuelOut
  | fuel + 1, fn, attrs => do
    let parts ← dumpProcedureParts d fuel fn false
    .ok (fixReturn parts.1 ++ "(" ++ dumpAttributes d attrs ++ ")(" ++ parts.2
      ++ ")")

/-- `TypeDumper::dump_other_ptr`.  The base rendering is emitted first, then
the qualifier stack; `typ.chars().last().unwrap()` panics on an empty base
rendering. -/
def dumpOtherPtr (d : TypeDumper) :
    Nat → TypeData → List PtrAttrs → Except DumpErr String
  | 0, _, _ => .error .fuelOut
  | fuel + 1, t, attributes => do
    let typStr ← dumpData d fuel t
    let attrStr := dumpAttributes d attributes
    let needSpace ←
      if attrStr.startsWith "c" then pure true
      else if d.flags.spaceBeforePointer then
        match typStr.toList.getLast? with
        | none => (.error .panicked : Except DumpErr Bool)
        | some c => pure (!(c == '*' || c == '&'))
      else pure false
    .ok (typStr ++ (if needSpace then " " else "") ++ attrStr)

/-- `TypeDumper::get_return_type`: a `None` return index, the no-return
style flag, or a constructor suppress the return type; a resolution failure
degrades to the empty string (`.ok()` in the source swallows it, while a
panic or fuel exhaustion propagates). -/
def getReturnType (d : TypeDumper) :
    Nat → Option Nat → FunctionAttributes → Bool → Except DumpErr String
  | 0, _, _, _ => .error .fuelOut
  | fuel + 1, typ, attrs, noReturn =>
    match typ with
    | none => .ok ""
    | some r =>
      if noReturn || attrs.isConstructor then .ok ""
      else
        match dumpIndex d fuel r with
        | .ok s => .ok s
        | .error .resolution => .ok ""
        | .error e => .error e

/-- `TypeDumper::dump_procedure_parts`: (return type, argument list). -/
def dumpProcedureParts (d : TypeDumper) :
    Nat → ProcedureType → Bool → Except DumpErr (String × String)
  | 0, _, _ => .error .fuelOut
  | fuel + 1, t, noReturn => do
    let ret ← getReturnType d fuel t.returnType t.attributes noReturn
    let args ← dumpIndex d fuel t.argumentList
    .ok (ret, args)

/-- `TypeDumper::dump_method_parts`:
(static, const-method, return type, argument list).  A `this` argument that
does not actually point (possibly through a modifier) to the enclosing
class is rendered as an explicit first argument. -/
def dumpMethodParts (d : TypeDumper) :
    Nat → MemberFunctionType → Bool →
    Except DumpErr (Bool × Bool × String × String)
  | 0, _, _ => .error .fuelOut
  | fuel + 1, t, noReturn => do
    let retTyp ← getReturnType d fuel (some t.returnType) t.attributes noReturn
    let argsTyp ← dumpIndex d fuel t.argumentList
    match t.thisPointerType with
    | none => .ok (true, false, retTyp, argsTyp)
    | some thisTyp => do
      let thisKind ← checkThisType d thisTyp t.classType
      if thisKind = .notThis then do
        let thisStr ← dumpIndex d fuel thisTyp
        if argsTyp = "" then .ok (false, false, retTyp, thisStr)
        else .ok (false, false, retTyp, thisStr ++ ", " ++ argsTyp)
      else .ok (false, thisKind = .constThis, retTyp, argsTyp)

/-- `TypeDumper::dump_arg_list`. -/
def dumpArgList (d : TypeDumper) :
    Nat → ArgumentListType → Except DumpErr String
  | 0, _ => .error .fuelOut
  | fuel + 1, t =>
    dumpArgListGo d fuel
      (if d.flags.spaceAfterComma then ", " else ",") t.arguments

/-- The `split_last` loop of `dump_arg_list`: dump each argument left to
right, separating by the comma string. -/
def dumpArgListGo (d : TypeDumper) :
    Nat → String → List Nat → Except DumpErr String
  | 0, _, _ => .error .fuelOut
  | _ + 1, _, [] => .ok ""
  | fuel + 1, _, [last] => dumpIndex d fuel last
  | fuel + 1, comma, index :: rest => do
    let s ← dumpIndex d fuel index
    let r ← dumpArgListGo d fuel comma rest
    .ok (s ++ comma ++ r)

/-- `TypeDumper::get_array_info`: collect the first byte-dimension of each
nested array record along the element chain (`dimensions[0]` panics on an
empty vector), returning the collected dimensions and the non-array base. -/
def getArrayInfo (d : TypeDumper) :
    Nat → ArrayType → Except DumpErr (List Nat × TypeData)
  | 0, _ => .error .fuelOut
  | fuel + 1, base =>
    match base.dimensions.head? with
    | none => .error .panicked
    | some dim0 =>
      match d.find base.elementType with
      | none => .error .resolution
      | some (.array a) => do
        let info ← getArrayInfo d fuel a
        .ok (dim0 :: info.1, info.2)
      | some t => .ok ([dim0], t)

/-- `TypeDumper::dump_array`. -/
def dumpArray (d : TypeDumper) : Nat → ArrayType → Except DumpErr String
  | 0, _ => .error .fuelOut
  | fuel + 1, arr => do
    let info ← getArrayInfo d fuel arr
    let baseSize ← getDataSize d fuel info.2
    let dimStrs := (dimStringsGo baseSize info.1.reverse).reverse
    let baseTyp ← dumpData d fuel info.2
    .ok (baseTyp ++ String.join dimStrs)

end

/-- The key/size a stream record contributes to the forward-reference size
map: class and union records with the forward-reference flag clear, keyed by
unique name falling back to source name. -/
def defKeySize : TypeData → Option (String × Nat)
  | .cls c =>
    if c.forwardReference then none else some (c.uniqueName.getD c.name, c.size)
  | .union u =>
    if u.forwardReference then none else some (u.uniqueName.getD u.name, u.size)
  | _ => none

/-- The size a single record defines for the given name, if any. -/
def recordDefFor (t : TypeData) (key : String) : Option Nat :=
  match defKeySize t with
  | some kv => if kv.1 = key then some kv.2 else none
  | none => none

/-- Modelled from the spec: the size recorded by the (last) non-forward
class or union definition record with the given name in the stream, if any
(conflicting keys are last-writer-wins). -/
def lastDefinitionSize (stream : List TypeData) (key : String) : Option Nat :=
  match stream with
  | [] => none
  | t :: rest => (lastDefinitionSize rest key).or (recordDefFor t key)

/-! ### Concrete fixtures used by witnesses and counterexamples -/

/-- Inventory rows `(a, 60, t=1)`, `(b, 60, t=2)`, `(c, 40, t=3)`. -/
def rowA : FileRow := ⟨["a"], 60, 1, 1⟩

def rowB : FileRow := ⟨["b"], 60, 2, 2⟩

def rowC : FileRow := ⟨["c"], 40, 3, 3⟩

/-- A finder for the array of byte-dimensions `[400, 40, 4]` over `int`:
index 20 is the outer record, nesting through 21 and 22 to `int` at 23. -/
def findArr400 : Nat → Option TypeData
  | 21 => some (.array ⟨22, [40]⟩)
  | 22 => some (.array ⟨23, [4]⟩)
  | 23 => some (.primitive ⟨.i32, false⟩)
  | _ => none

def dumperArr400 : TypeDumper := ⟨findArr400, [], 8, DumperFlags.defaults⟩

/-- A finder for the degenerate chain `A = 1, B = 1, C = 0, E = 4`
(byte-dimension chain `0, 0, 0` over `int`). -/
def findArrDeg : Nat → Option TypeData
  | 31 => some (.array ⟨32, [0]⟩)
  | 32 => some (.array ⟨33, [0]⟩)
  | 33 => some (.primitive ⟨.i32, false⟩)
  | _ => none

def dumperArrDeg : TypeDumper := ⟨findArrDeg, [], 8, DumperFlags.defaults⟩

/-- A well-formed chain `A = 2, B = 3, C = 4, E = 4` (byte-dimension chain
`96, 48, 16` over `int`), used to witness the amended round-trip. -/
def findArrW : Nat → Option TypeData
  | 41 => some (.array ⟨42, [48]⟩)
  | 42 => some (.array ⟨43, [16]⟩)
  | 43 => some (.primitive ⟨.i32, false⟩)
  | _ => none

def dumperArrW : TypeDumper := ⟨findArrW, [], 8, DumperFlags.defaults⟩

/-- A type stream with a forward reference to class `S` (unique name `uS`)
and its later definition of size 24. -/
def streamC3 : List TypeData :=
  [.cls ⟨"S", some "uS", .struct, 0, true⟩,
   .cls ⟨"S", some "uS", .struct, 24, false⟩]

/-- A finder resolving index 5 to the forward reference to `S` and index 6
to a forward-declared union with no definition in the stream. -/
def findC3 : Nat → Option TypeData
  | 5 => some (.cls ⟨"S", some "uS", .struct, 0, true⟩)
  | 6 => some (.union ⟨"U", some "uU", 12, true⟩)
  | _ => none

def dumperC3 : TypeDumper := TypeDumper.new findC3 streamC3 8 .defaults

/-- A finder resolving index 7 to an array record of dimensions `[16]`. -/
def findC8 : Nat → Option TypeData
  | 7 => some (.array ⟨23, [16]⟩)
  | _ => none

def dumperC8 : TypeDumper := ⟨findC8, [], 8, DumperFlags.defaults⟩

/-! ## Theorems -/

/-- The loop of the code's size-eviction query agrees with the amended
spec-side accumulation (stop once the cumulative size reaches the excess). -/
theorem filesToDeleteLoop_eq_accumulate (rows : List FileRow) :
    ∀ excess, filesToDeleteLoop excess rows = accumulateUntilAtMostCap excess rows := by
  induction rows with
  | nil => intro excess; rfl
  | cons r rs ih =>
    intro excess
    simp only [filesToDeleteLoop, accumulateUntilAtMostCap, ih]
    by_cases h : excess ≤ r.size
    · simp [Nat.sub_eq_zero_iff_le, h]
    · simp [Nat.sub_eq_zero_iff_le, h]

/-- C2 (amended): for every inventory and cap, the size-eviction query
returns the absolute paths of the rows in ascending last-access order,
accumulated until their cumulative size reduces the total to **at most**
the cap, and returns the empty list when the total is strictly under the
cap; with cap 100 and rows `(a, 60, t=1)`, `(b, 60, t=2)` it returns
exactly `[a]`, leaving a total of 60. -/
theorem c2_size_eviction_at_most_cap :
    (∀ (root : List String) (db : Inventory) (cap : Nat),
      get_files_to_delete_to_enforce_max_size root db cap =
        specEnforceMaxSizeAtMostCap root db cap) ∧
    get_files_to_delete_to_enforce_max_size ["root"] [rowA, rowB] 100 =
      [["root", "a"]] ∧
    totalSizeInBytes [rowB] = 60 := by
  refine ⟨fun root db cap => ?_, rfl, rfl⟩
  simp only [get_files_to_delete_to_enforce_max_size, specEnforceMaxSizeAtMostCap,
    filesToDeleteLoop_eq_accumulate]

/-- C2 counterexample: with cap 100 and rows `(a, 60, t=1)`, `(b, 60, t=2)`,
`(c, 40, t=3)` (total 160), the code deletes `a` only, leaving a total of
100 — not strictly below the cap — while the claim's accumulate-until-below
rule would delete `a` and `b`. -/
theorem c2_counterexample :
    get_files_to_delete_to_enforce_max_size ["root"] [rowA, rowB, rowC] 100 =
      [["root", "a"]] ∧
    claimEnforceMaxSizeBelowCap ["root"] [rowA, rowB, rowC] 100 =
      [["root", "a"], ["root", "b"]] ∧
    get_files_to_delete_to_enforce_max_size ["root"] [rowA, rowB, rowC] 100 ≠
      claimEnforceMaxSizeBelowCap ["root"] [rowA, rowB, rowC] 100 := by
  refine ⟨rfl, rfl, by decide⟩

/-- C9: a path that cannot be expressed relative to the canonicalized
managed root leaves the inventory database untouched by each of the four
event operations. -/
theorem c9_outside_root_no_effect (root : List String)
    (canon : List String → List String) (db : Inventory) (p : List String)
    (sizeInBytes creationTime accessTime : Nat)
    (h : relative_path_under_managed_directory root canon p = none) :
    on_file_created root canon db p sizeInBytes creationTime = db ∧
    on_file_accessed root canon db p accessTime = db ∧
    on_file_deleted root canon db p = db ∧
    on_file_found_to_be_absent root canon db p = db := by
  refine ⟨?_, ?_, ?_, ?_⟩ <;>
    simp [on_file_created, on_file_accessed, on_file_deleted,
      on_file_found_to_be_absent, h]

/-- Witness for C9 at a concrete out-of-root path. -/
theorem c9_witness :
    relative_path_under_managed_directory ["managed"] id ["elsewhere", "f"] =
      none ∧
    (on_file_created ["managed"] id [rowA] ["elsewhere", "f"] 5 7 = [rowA] ∧
     on_file_accessed ["managed"] id [rowA] ["elsewhere", "f"] 9 = [rowA] ∧
     on_file_deleted ["managed"] id [rowA] ["elsewhere", "f"] = [rowA] ∧
     on_file_found_to_be_absent ["managed"] id [rowA] ["elsewhere", "f"] =
       [rowA]) :=
  ⟨by decide,
   c9_outside_root_no_effect ["managed"] id [rowA] ["elsewhere", "f"] 5 7 9
     (by decide)⟩

/-- C10: when the total size equals the cap exactly and the inventory is
nonempty, the size-eviction query returns exactly one file — the first row
of the last-access ordering, whose last-access time is minimal. -/
theorem c10_exact_cap_single_eviction (root : List String) (db : Inventory)
    (hne : db ≠ []) :
    get_files_to_delete_to_enforce_max_size root db (totalSizeInBytes db) =
      ((orderByLastAccessTime db).take 1).map
        (fun r => toAbsolutePath root r.path) ∧
    ((orderByLastAccessTime db).take 1).length = 1 ∧
    ∀ y ∈ (orderByLastAccessTime db).take 1, ∀ x ∈ db,
      y.lastAccessTime ≤ x.lastAccessTime := by
  have hperm : (orderByLastAccessTime db).Perm db :=
    List.perm_insertionSort accessLe db
  have hsorted : List.Sorted accessLe (orderByLastAccessTime db) :=
    List.sorted_insertionSort accessLe db
  obtain ⟨s, ss, hcons⟩ : ∃ s ss, orderByLastAccessTime db = s :: ss := by
    cases hlist : orderByLastAccessTime db with
    | nil => exact absurd ((hlist ▸ hperm).symm.eq_nil) hne
    | cons s ss => exact ⟨s, ss, rfl⟩
  refine ⟨?_, ?_, ?_⟩
  · simp only [get_files_to_delete_to_enforce_max_size, Nat.lt_irrefl,
      if_false, Nat.sub_self, hcons]
    simp [filesToDeleteLoop]
  · simp [hcons]
  · intro y hy x hx
    rw [hcons] at hy
    simp only [List.take_succ_cons, List.take_zero, List.mem_singleton] at hy
    have hxs : x ∈ orderByLastAccessTime db := (hperm.mem_iff).mpr hx
    rw [hcons] at hxs hsorted
    rcases List.mem_cons.mp hxs with h | h
    · rw [hy, h]
    · rw [hy]
      exact (List.sorted_cons.mp hsorted).1 x h

/-- Witness for C10: rows `(b, 60, t=2)`, `(a, 60, t=1)` with cap 120. -/
theorem c10_witness :
    ([rowB, rowA] ≠ ([] : Inventory)) ∧
    (get_files_to_delete_to_enforce_max_size ["root"] [rowB, rowA]
        (totalSizeInBytes [rowB, rowA]) =
      ((orderByLastAccessTime [rowB, rowA]).take 1).map
        (fun r => toAbsolutePath ["root"] r.path) ∧
     ((orderByLastAccessTime [rowB, rowA]).take 1).length = 1 ∧
     ∀ y ∈ (orderByLastAccessTime [rowB, rowA]).take 1, ∀ x ∈ [rowB, rowA],
       y.lastAccessTime ≤ x.lastAccessTime) :=
  ⟨by decide, c10_exact_cap_single_eviction ["root"] [rowB, rowA] (by decide)⟩

/-- C1 (code bug): reads at `0x1000..0x1008`, `0x2000..0x2008`, then
`0x1ff8..0x2008` (page size `0x1000`, every remap succeeding) leave the
segment list `[(0x1000, 0x3000), (0x2000, 0x3000)]`.  The third read hits
the first segment with its first byte and the second segment with its last
byte (`binary_search` returns `Ok(0)`/`Ok(1)`), and `splice(0..1)` removes
only index 0, so the pre-existing segment `(0x2000, 0x3000)` overlapped by
the new `(0x1000, 0x3000)` is *not* replaced: the disjoint-segment
invariant is violated. -/
theorem c1_codebug_overlapping_segments :
    sliceStep (fun _ _ => true)
        (sliceStep (fun _ _ => true)
          (sliceStep (fun _ _ => true) [] 4096 4104) 8192 8200) 8184 8200 =
      [⟨4096, 12288⟩, ⟨8192, 12288⟩] ∧
    ¬ segInvariant [⟨4096, 12288⟩, ⟨8192, 12288⟩] :=
  ⟨rfl, by decide⟩


/-- The stack-walk loop appends to its accumulator exactly the spec-side
chain of return addresses. -/
theorem walkLoop_eq_append (mem : Mem) (framePtr : Nat) (frames : List Nat) :
    walkLoop mem framePtr frames = frames ++ specFrameChain mem framePtr := by
  induction framePtr, frames using walkLoop.induct mem with
  | case1 framePtr frames hcond hv =>
    have hc2 : ¬(framePtr = 0 ∨ ¬framePtr % 8 = 0) := by
      push_neg
      exact hcond
    rw [walkLoop, specFrameChain, if_pos hcond, if_neg hc2, hv]
    simp
  | case2 framePtr frames hcond r hr caller hle =>
    have hle' : r % 18446744073709551616 ≤ framePtr := hle
    have hc2 : ¬(framePtr = 0 ∨ ¬framePtr % 8 = 0) := by
      push_neg
      exact hcond
    rw [walkLoop, specFrameChain, if_pos hcond, if_neg hc2, hr]
    simp [hle']
  | case3 framePtr frames hcond r hr caller hle hret =>
    have hle' : ¬r % 18446744073709551616 ≤ framePtr := hle
    have hc2 : ¬(framePtr = 0 ∨ ¬framePtr % 8 = 0) := by
      push_neg
      exact hcond
    have hret' : mem ((framePtr + 8) % 18446744073709551616) = none := hret
    rw [walkLoop, specFrameChain, if_pos hcond, if_neg hc2, hr]
    simp [hle', hret']
  | case4 framePtr frames hcond r hr caller hle ret hret ih =>
    have hle' : ¬r % 18446744073709551616 ≤ framePtr := hle
    have ih' : walkLoop mem (r % 18446744073709551616) (frames ++ [ret % 18446744073709551616]) =
        (frames ++ [ret % 18446744073709551616]) ++ specFrameChain mem (r % 18446744073709551616) := ih
    have hc2 : ¬(framePtr = 0 ∨ ¬framePtr % 8 = 0) := by
      push_neg
      exact hcond
    have hret' : mem ((framePtr + 8) % 18446744073709551616) = some ret := hret
    rw [walkLoop, specFrameChain, if_pos hcond, if_neg hc2, hr]
    simp [hle', hret', ih']
  | case5 framePtr frames hcond =>
    have hc2 : framePtr = 0 ∨ ¬framePtr % 8 = 0 := by tauto
    rw [walkLoop, specFrameChain, if_neg hcond, if_pos hc2]
    simp

/-- C4: the frame-pointer stack walk pushes `rip` first, collects return
addresses along the frame chain exactly as the spec's iteration describes
(stopping on a zero or misaligned frame pointer, a failed read, or a
non-increasing next frame pointer), and reverses the result so the output
is caller-first; in particular a walk started with `rbp = 0` returns
exactly `[rip]`. -/
theorem c4_stackwalk_caller_first :
    (∀ (st : ThreadState64) (mem : Mem),
      do_frame_pointer_stackwalk st mem [] =
        (st.rip :: specFrameChain mem st.rbp).reverse) ∧
    (∀ (rip : Nat) (mem : Mem),
      do_frame_pointer_stackwalk ⟨rip, 0⟩ mem [] = [rip]) := by
  constructor
  · intro st mem
    rw [do_frame_pointer_stackwalk, walkLoop_eq_append]
    simp
  · intro rip mem
    rw [do_frame_pointer_stackwalk, walkLoop_eq_append, specFrameChain]
    simp

/-- C5: after a successful suspend, `get_backtrace` invokes the thread
resume primitive exactly once and as the last primitive before returning,
on the register-fetch failure path as well as on success; `get_dyld_info`
likewise resumes the task exactly once and last, whatever the enumeration's
outcome, which it returns unchanged. -/
theorem c5_resume_on_all_exit_paths :
    ∀ (stateResult : Option ThreadState64) (mem : Mem) (frames : List Nat)
      (α : Type) (innerResult : Except KernelErr α),
      ((get_backtrace true stateResult mem frames).2.count
          .threadResumeCall = 1 ∧
       (get_backtrace true stateResult mem frames).2.getLast? =
          some .threadResumeCall) ∧
      ((get_dyld_info true innerResult).2.count .taskResumeCall = 1 ∧
       (get_dyld_info true innerResult).2.getLast? = some .taskResumeCall ∧
       (get_dyld_info true innerResult).1 = innerResult) := by
  intro stateResult mem frames α innerResult
  refine ⟨⟨?_, ?_⟩, ?_, ?_, ?_⟩
  · cases stateResult <;> simp [get_backtrace, List.count_cons]
  · cases stateResult <;> simp [get_backtrace]
  · simp [get_dyld_info, List.count_cons]
  · simp [get_dyld_info]
  · simp [get_dyld_info]

/-- Looking a name up after one insertion step sees the step's definition
first, falling back to the older map (`HashMap::insert` overwrites). -/
theorem fwdGet_fwdStep (m : List (String × Nat)) (t : TypeData) (key : String) :
    fwdGet (fwdStep m t) key = (recordDefFor t key).or (fwdGet m key) := by
  cases t with
  | cls c =>
    by_cases hfr : c.forwardReference
    · simp [fwdStep, recordDefFor, defKeySize, hfr, Option.or]
    · by_cases hk : key = c.uniqueName.getD c.name
      · simp [fwdStep, recordDefFor, defKeySize, hfr, fwdInsert, fwdGet, hk,
          Option.or]
      · have hk2 : ¬(c.uniqueName.getD c.name = key) := fun h => hk h.symm
        simp [fwdStep, recordDefFor, defKeySize, hfr, fwdInsert, fwdGet, hk,
          hk2, Option.or]
  | union u =>
    by_cases hfr : u.forwardReference
    · simp [fwdStep, recordDefFor, defKeySize, hfr, Option.or]
    · by_cases hk : key = u.uniqueName.getD u.name
      · simp [fwdStep, recordDefFor, defKeySize, hfr, fwdInsert, fwdGet, hk,
          Option.or]
      · have hk2 : ¬(u.uniqueName.getD u.name = key) := fun h => hk h.symm
        simp [fwdStep, recordDefFor, defKeySize, hfr, fwdInsert, fwdGet, hk,
          hk2, Option.or]
  | primitive t => rfl
  | pointer t => rfl
  | modifier t => rfl
  | array t => rfl
  | procedure t => rfl
  | memberFunction t => rfl
  | argumentList t => rfl
  | enumeration t => rfl
  | enumerate t => rfl

/-- The forward-reference size map built by `TypeDumper::new` answers with
the last matching definition of the stream, falling back to the initial
map. -/
theorem fwdGet_foldl (key : String) :
    ∀ (stream : List TypeData) (m : List (String × Nat)),
      fwdGet (stream.foldl fwdStep m) key =
        (lastDefinitionSize stream key).or (fwdGet m key) := by
  intro stream
  induction stream with
  | nil => intro m; simp [lastDefinitionSize]
  | cons t rest ih =>
    intro m
    rw [List.foldl_cons, ih, lastDefinitionSize, Option.or_assoc,
      fwdGet_fwdStep]

/-- `fwdGet` over the map of `TypeDumper::new` is exactly the last
definition of the stream. -/
theorem fwdGet_buildFwd (stream : List TypeData) (key : String) :
    fwdGet (buildFwd stream) key = lastDefinitionSize stream key := by
  rw [buildFwd, fwdGet_foldl]
  simp [fwdGet]

/-- C3: `get_type_size` on a forward-reference record for a class or union
returns the size recorded by the (last) non-forward definition of the same
key — the unique name, falling back to the source name — in the stream the
dumper was built over, and falls back to the forward record's own declared
size when the stream holds no such definition (`Option.getD` folds both
cases). -/
theorem c3_forward_ref_size_from_definition
    (findFn : Nat → Option TypeData) (stream : List TypeData)
    (ptrSize : Nat) (flags : DumperFlags) (fuel index : Nat) :
    (∀ c : ClassType, findFn index = some (.cls c) →
      c.forwardReference = true →
      getTypeSize (TypeDumper.new findFn stream ptrSize flags) (fuel + 2)
          index =
        .ok ((lastDefinitionSize stream (c.uniqueName.getD c.name)).getD
          c.size)) ∧
    (∀ u : UnionType, findFn index = some (.union u) →
      u.forwardReference = true →
      getTypeSize (TypeDumper.new findFn stream ptrSize flags) (fuel + 2)
          index =
        .ok ((lastDefinitionSize stream (u.uniqueName.getD u.name)).getD
          u.size)) := by
  constructor
  · intro c hf hfr
    simp [getTypeSize, TypeDumper.new, hf, getDataSize, get_class_size, hfr,
      fwdGet_buildFwd]
  · intro u hf hfr
    simp [getTypeSize, TypeDumper.new, hf, getDataSize, get_union_size, hfr,
      fwdGet_buildFwd]

/-- Witness for C3: forward-declared class `S` (unique name `uS`, declared
size 0) resolves to the definition's size 24; forward-declared union `U`
(no definition in the stream) falls back to its own declared size 12. -/
theorem c3_witness :
    (findC3 5 = some (.cls ⟨"S", some "uS", .struct, 0, true⟩) ∧
     (⟨"S", some "uS", .struct, 0, true⟩ : ClassType).forwardReference =
       true ∧
     findC3 6 = some (.union ⟨"U", some "uU", 12, true⟩) ∧
     (⟨"U", some "uU", 12, true⟩ : UnionType).forwardReference = true) ∧
    getTypeSize dumperC3 7 5 = .ok 24 ∧
    getTypeSize dumperC3 7 6 = .ok 12 :=
  ⟨⟨rfl, rfl, rfl, rfl⟩,
   (c3_forward_ref_size_from_definition findC3 streamC3 8 .defaults 5 5).1
     ⟨"S", some "uS", .struct, 0, true⟩ rfl rfl,
   (c3_forward_ref_size_from_definition findC3 streamC3 8 .defaults 5 6).2
     ⟨"U", some "uU", 12, true⟩ rfl rfl⟩

/-- C8: `get_type_size` on an index resolving to an array record returns
the record's outermost byte-dimension (in the nested chain representation
every array record carries the byte span of its own — outermost — level as
its single dimension). -/
theorem c8_array_size_outermost_dimension (d : TypeDumper)
    (fuel index dim : Nat) (a : ArrayType)
    (hf : d.find index = some (.array a)) (hd : a.dimensions = [dim]) :
    getTypeSize d (fuel + 2) index = .ok dim := by
  simp [getTypeSize, hf, getDataSize, hd]

/-- Witness for C8: an array record of byte-dimensions `[16]`. -/
theorem c8_witness :
    (findC8 7 = some (.array ⟨23, [16]⟩) ∧
     (⟨23, [16]⟩ : ArrayType).dimensions = [16]) ∧
    getTypeSize dumperC8 2 7 = .ok 16 :=
  ⟨⟨rfl, rfl⟩,
   c8_array_size_outermost_dimension dumperC8 0 7 16 ⟨23, [16]⟩ rfl rfl⟩

/-- C6 (amended): for a base type of size `E ≥ 1` and element counts
`A, B, C` with `B ≥ 1` and `C ≥ 1`, an array whose byte-dimension chain is
encoded as `A*B*C*E, B*C*E, C*E` renders as the rendering of the base type
followed by `[A][B][C]`. -/
theorem c6_array_dimension_roundtrip (d : TypeDumper) (fuel : Nat)
    (arr : ArrayType) (base : TypeData) (s : String) (A B C E : Nat)
    (hB : 1 ≤ B) (hC : 1 ≤ C) (hE : 1 ≤ E)
    (hinfo : getArrayInfo d fuel arr =
      .ok ([A * B * C * E, B * C * E, C * E], base))
    (hsize : getDataSize d fuel base = .ok E)
    (hdump : dumpData d fuel base = .ok s) :
    dumpArray d (fuel + 1) arr =
      .ok (s ++ ("[" ++ toString A ++ "]") ++ ("[" ++ toString B ++ "]")
        ++ ("[" ++ toString C ++ "]")) := by
  have hE0 : 0 < E := hE
  have hCE0 : 0 < C * E := Nat.mul_pos hC hE
  have hBCE0 : 0 < B * C * E := Nat.mul_pos (Nat.mul_pos hB hC) hE
  have h1 : C * E / E = C := Nat.mul_div_cancel C hE0
  have h2 : B * C * E / (C * E) = B := by
    rw [Nat.mul_assoc]
    exact Nat.mul_div_cancel B hCE0
  have h3 : A * B * C * E / (B * C * E) = A := by
    rw [show A * B * C * E = A * (B * C * E) by ring]
    exact Nat.mul_div_cancel A hBCE0
  have hdims :
      (dimStringsGo E ([A * B * C * E, B * C * E, C * E]).reverse).reverse =
        ["[" ++ toString A ++ "]", "[" ++ toString B ++ "]",
         "[" ++ toString C ++ "]"] := by
    simp only [List.reverse_cons, List.reverse_nil, List.nil_append,
      List.cons_append, dimStringsGo]
    rw [if_pos (Nat.pos_iff_ne_zero.mp hE0),
      if_pos (Nat.pos_iff_ne_zero.mp hCE0),
      if_pos (Nat.pos_iff_ne_zero.mp hBCE0), h1, h2, h3]
  simp only [dumpArray, hinfo, hsize, hdump, Except.bind, bind]
  rw [hdims]
  simp [String.join, String.empty_append, String.append_assoc]

/-- C6 counterexample: at `A = 1, B = 1, C = 0, E = 4` (byte-dimension
chain `0, 0, 0` over `int`) the renderer yields `int[][][0]`, not the
claimed `int[1][1][0]`. -/
theorem c6_counterexample :
    getArrayInfo dumperArrDeg 10 ⟨31, [0]⟩ =
      .ok ([1 * 1 * 0 * 4, 1 * 0 * 4, 0 * 4], .primitive ⟨.i32, false⟩) ∧
    getDataSize dumperArrDeg 10 (.primitive ⟨.i32, false⟩) = .ok 4 ∧
    dumpData dumperArrDeg 10 (.primitive ⟨.i32, false⟩) = .ok "int" ∧
    dumpArray dumperArrDeg 11 ⟨31, [0]⟩ = .ok "int[][][0]" ∧
    ("int[][][0]" : String) ≠
      "int" ++ ("[" ++ toString 1 ++ "]") ++ ("[" ++ toString 1 ++ "]")
        ++ ("[" ++ toString 0 ++ "]") :=
  ⟨rfl, rfl, rfl, rfl, by decide⟩

/-- Witness for C6 at `A = 2, B = 3, C = 4, E = 4` (chain `96, 48, 16`
over `int`). -/
theorem c6_witness :
    (1 ≤ 3 ∧ 1 ≤ 4 ∧ 1 ≤ 4 ∧
     getArrayInfo dumperArrW 10 ⟨41, [96]⟩ =
       .ok ([2 * 3 * 4 * 4, 3 * 4 * 4, 4 * 4], .primitive ⟨.i32, false⟩) ∧
     getDataSize dumperArrW 10 (.primitive ⟨.i32, false⟩) = .ok 4 ∧
     dumpData dumperArrW 10 (.primitive ⟨.i32, false⟩) = .ok "int") ∧
    dumpArray dumperArrW 11 ⟨41, [96]⟩ = .ok "int[2][3][4]" :=
  ⟨⟨by decide, by decide, by decide, rfl, rfl, rfl⟩,
   by
    have h := c6_array_dimension_roundtrip dumperArrW 10 ⟨41, [96]⟩
      (.primitive ⟨.i32, false⟩) "int" 2 3 4 4 (by decide) (by decide)
      (by decide) rfl rfl rfl
    simpa using h⟩

/-- C7 (amended): for the array of byte-dimensions `[400, 40, 4]` over
`int` (element size 4), `render` yields `int[10][10][1]` — the innermost
dimension divides by the element size (`4 / 4 = 1`). -/
theorem c7_array_400_40_4_renders :
    dumpArray dumperArr400 11 ⟨21, [400]⟩ = .ok "int[10][10][1]" := rfl

/-- C7 counterexample: the rendering of the byte-dimension array
`[400, 40, 4]` over `int` is `int[10][10][1]`, not the claimed
`int[10][10][4]`. -/
theorem c7_counterexample :
    dumpArray dumperArr400 11 ⟨21, [400]⟩ = .ok "int[10][10][1]" ∧
    ("int[10][10][1]" : String) ≠ "int[10][10][4]" :=
  ⟨rfl, by decide⟩
